import Mathlib

/-!
Verification of the n2t-rs chip-simulation core against its specification.

The definitions below are shallow embeddings of the Rust sources:
* `Bus`, `wordOfState`, `stateOfWord` — `src/chip/bus.rs` (`Bus`, `bus_voltage`,
  `set_bus_voltage`, `pull`, `toggle`, `voltage`, `connect`)
* `Net` — a bus together with its `connections` listener list (`bus.rs`)
* `InSubBus` — `src/chip/subbus.rs`
* `Memory` — `src/chip/builtins/sequential/memory.rs`
* `Clock` — `src/chip/clock.rs`
* `aluOperation`, `aluEval` — `src/chip/builtins/arithmetic/alu.rs`
* `Ram8`, `Pc` — `src/chip/builtins/sequential/ram8.rs`, `pc.rs`
* `chipGetPin`, `builtinGetPin`, `ram8GetPin` — `src/chip/chip.rs`,
  `src/chip/builtins/mod.rs`, and the hand-written sequential chips
* `ConstantPin`, `resolvePinSideTrue/False` — `src/chip/pin.rs`, `chip.rs`
Machine integers (`u16`, `usize`) are modelled as `Nat` with explicit masking
exactly where the source masks.
-/

namespace N2T

/-- `HIGH` voltage constant from `pin.rs`. -/
def HIGH : Nat := 1

/-- `LOW` voltage constant from `pin.rs`. -/
def LOW : Nat := 0

/-- The error enum from `src/error.rs` (`SimulatorError`), restricted to the
variants the chip core produces. -/
inductive SimulatorError where
  | Hardware (msg : String)
  | Parse (msg : String)
  | PinNotFound (pin : String) (chip : String)
  deriving DecidableEq, Repr

/-- Whether an error is the `PinNotFound` variant of `SimulatorError`. -/
def SimulatorError.isPinNotFound : SimulatorError → Bool
  | .PinNotFound _ _ => true
  | _ => false

/-- Whether a fallible result failed with the `PinNotFound` error variant. -/
def failedWithPinNotFound {α : Type} : Except SimulatorError α → Bool
  | .error e => e.isPinNotFound
  | .ok _ => false

/-- A `Bus` from `bus.rs`: a fixed `width` and the per-bit `state : Vec<Voltage>`
(bit 0 first).  The `connections` listener list is modelled separately by `Net`.
Every constructor and operation keeps `state.length = width`. -/
structure Bus where
  width : Nat
  state : List Nat
  deriving DecidableEq, Repr

/-- `Bus::new(name, width)`: all bits start `LOW`. -/
def Bus.new (width : Nat) : Bus :=
  { width := width, state := List.replicate width LOW }

/-- `Bus::bus_voltage`: little-endian word of the state; an entry contributes
`1 << i` exactly when it equals `HIGH`. -/
def wordOfState : List Nat → Nat
  | [] => 0
  | v :: rest => (if v = HIGH then 1 else 0) + 2 * wordOfState rest

/-- The state vector written by `Bus::set_bus_voltage`: entry `i` is `HIGH`
exactly when bit `i` of the written word is set (`voltage & (1 << i) != 0`),
for `i` in `0..width`. -/
def stateOfWord : Nat → Nat → List Nat
  | 0, _ => []
  | w + 1, v => (if v % 2 = 1 then HIGH else LOW) :: stateOfWord w (v / 2)

/-- `Bus::bus_voltage`. -/
def Bus.busVoltage (b : Bus) : Nat := wordOfState b.state

/-- `Bus::set_bus_voltage` (the local-state update; listener propagation is
modelled by `Net.setWord`). -/
def Bus.setBusVoltage (b : Bus) (voltage : Nat) : Bus :=
  { b with state := stateOfWord b.width voltage }

/-- `Bus::voltage(bit)`: out-of-range bit is a `Hardware` error, otherwise the
stored per-bit voltage.  A `None` bit argument defaults to bit 0. -/
def Bus.voltage (b : Bus) (bit : Option Nat) : Except SimulatorError Nat :=
  let bit := bit.getD 0
  if bit ≥ b.width then
    .error (.Hardware "Bit out of bounds for bus")
  else
    .ok (b.state.getD bit LOW)

/-- `Bus::pull(voltage, bit)`: returns the post-state together with the
`Result`; on an out-of-range bit the state is returned unchanged with a
`Hardware` error, mirroring the early return in the source. -/
def Bus.pull (b : Bus) (voltage : Nat) (bit : Option Nat) :
    Bus × Except SimulatorError Unit :=
  let bit := bit.getD 0
  if bit ≥ b.width then
    (b, .error (.Hardware "Bit out of bounds for bus"))
  else
    ({ b with state := b.state.set bit voltage }, .ok ())

/-- `Bus::toggle(bit)`: reads the current voltage and pulls its flip
(`LOW ↦ HIGH`, otherwise `LOW`). -/
def Bus.toggle (b : Bus) (bit : Option Nat) : Bus × Except SimulatorError Unit :=
  let bitn := bit.getD 0
  match b.voltage (some bitn) with
  | .error e => (b, .error e)
  | .ok current => b.pull (if current = LOW then HIGH else LOW) (some bitn)

/-- A bus together with its registered listeners (`connections` in `bus.rs`).
Listeners are modelled one level deep: the listed buses have no further
listeners of their own, which is all the attach/propagate claims need. -/
structure Net where
  parent : Bus
  listeners : List Bus
  deriving DecidableEq, Repr

/-- `Bus::connect(pin)`: first writes the current word into the new listener
via its `set_bus_voltage`, then appends it to the listener list. -/
def Net.connect (n : Net) (l : Bus) : Net :=
  { n with listeners := n.listeners ++ [l.setBusVoltage n.parent.busVoltage] }

/-- `Bus::set_bus_voltage` with propagation (`propagate_bus_voltage`): the
parent updates its own state, then every listener receives the same raw word
through its own `set_bus_voltage`. -/
def Net.setWord (n : Net) (voltage : Nat) : Net :=
  { parent := n.parent.setBusVoltage voltage,
    listeners := n.listeners.map (fun l => l.setBusVoltage voltage) }

/-- The `mask` helper from `subbus.rs`. -/
def mask16 (bits : Nat) : Nat :=
  if bits ≥ 16 then 0xFFFF else (1 <<< bits) - 1

/-- An `InSubBus` from `subbus.rs`: a view over `parent` at offset `start`
and width `width`. -/
structure InSubBus where
  parent : Bus
  start : Nat
  width : Nat
  deriving DecidableEq, Repr

/-- `InSubBus::bus_voltage`: project the parent word. -/
def InSubBus.busVoltage (s : InSubBus) : Nat :=
  (s.parent.busVoltage >>> s.start) &&& mask16 s.width

/-- `InSubBus::set_bus_voltage`: clear bits `[start, start+width)` of the
parent word, or in the masked new value, and write the result back through the
parent's `set_bus_voltage`.  The `!` on `u16` is modelled as xor with `0xFFFF`. -/
def InSubBus.setBusVoltage (s : InSubBus) (voltage : Nat) : InSubBus :=
  let currentVoltage := s.parent.busVoltage
  let clearMask := 0xFFFF ^^^ (mask16 s.width <<< s.start)
  let cleared := currentVoltage &&& clearMask
  let newBits := (voltage &&& mask16 s.width) <<< s.start
  { s with parent := s.parent.setBusVoltage (cleared ||| newBits) }

/-- `ConstantPin` from `pin.rs`. -/
structure ConstantPin where
  name : String
  voltage : Nat
  deriving DecidableEq, Repr

/-- `ConstantPin::new`: `"false"`/`"0"` give `LOW`, `"true"`/`"1"` give `HIGH`,
anything else is a `Hardware` error. -/
def ConstantPin.new (name : String) : Except SimulatorError ConstantPin :=
  if name = "false" ∨ name = "0" then .ok { name := name, voltage := LOW }
  else if name = "true" ∨ name = "1" then .ok { name := name, voltage := HIGH }
  else .error (.Hardware "Invalid constant pin name")

/-- `ConstantPin::width`. -/
def ConstantPin.width (_ : ConstantPin) : Nat := 1

/-- `ConstantPin::bus_voltage`. -/
def ConstantPin.busVoltage (c : ConstantPin) : Nat := c.voltage

/-- `ConstantPin::set_bus_voltage`: constants cannot be modified. -/
def ConstantPin.setBusVoltage (c : ConstantPin) (_voltage : Nat) : ConstantPin := c

/-- `ConstantPin::pull`: dropped, returns `Ok(())`. -/
def ConstantPin.pull (c : ConstantPin) (_voltage : Nat) (_bit : Option Nat) :
    ConstantPin × Except SimulatorError Unit := (c, .ok ())

/-- `ConstantPin::toggle`: dropped, returns `Ok(())`. -/
def ConstantPin.toggle (c : ConstantPin) (_bit : Option Nat) :
    ConstantPin × Except SimulatorError Unit := (c, .ok ())

/-- `Chip::resolve_pin_side` on the name `"true"` (`chip.rs`): a fresh 1-bit
ordinary `Bus` whose voltage is set to 1. -/
def resolvePinSideTrue : Bus := (Bus.new 1).setBusVoltage 1

/-- `Chip::resolve_pin_side` on the name `"false"` (`chip.rs`): a fresh 1-bit
ordinary `Bus` whose voltage is set to 0. -/
def resolvePinSideFalse : Bus := (Bus.new 1).setBusVoltage 0

/-- `Memory` from `memory.rs`: a vector of 16-bit words plus its size. -/
structure Memory where
  data : List Nat
  size : Nat
  deriving DecidableEq, Repr

/-- `Memory::new(size)`: zero-filled. -/
def Memory.new (size : Nat) : Memory :=
  { data := List.replicate size 0, size := size }

/-- `Memory::get`: out-of-bounds reads return the `0xFFFF` sentinel. -/
def Memory.get (m : Memory) (address : Nat) : Nat :=
  if address ≥ m.size then 0xFFFF else m.data.getD address 0

/-- `Memory::set`: in-bounds writes store the value masked to 16 bits;
out-of-bounds writes are silently dropped. -/
def Memory.set (m : Memory) (address value : Nat) : Memory :=
  if address < m.size then
    { m with data := m.data.set address (value &&& 0xFFFF) }
  else m

/-- The `Clock` from `clock.rs`: a level and a monotonic tick counter. -/
structure Clock where
  level : Nat
  ticks : Nat
  deriving DecidableEq, Repr

/-- `Clock::new()`: level `LOW`, zero ticks. -/
def Clock.new : Clock := { level := LOW, ticks := 0 }

/-- `Clock::tick()`: increments the counter and toggles the level
(the counter is incremented on every call, on both edges). -/
def Clock.tick (c : Clock) : Clock :=
  { level := if c.level = LOW then HIGH else LOW, ticks := c.ticks + 1 }

/-- `n` consecutive `Clock::tick()` calls. -/
def Clock.tickN (c : Clock) : Nat → Clock
  | 0 => c
  | n + 1 => (c.tick).tickN n

/-- The `AluFlags` enum from `alu.rs`. -/
inductive AluFlags where
  | Positive
  | Zero
  | Negative
  deriving DecidableEq, Repr

/-- The flag-determination block at the end of `alu_operation` (`alu.rs`):
`Zero` when the result is 0, else `Negative` when bit 15 (`0x8000`) is set,
else `Positive`. -/
def aluFlagsOf (result : Nat) : AluFlags :=
  if result = 0 then AluFlags.Zero
  else if result &&& 0x8000 ≠ 0 then AluFlags.Negative
  else AluFlags.Positive

/-- `AluChip::alu_operation(op, x, y)` from `alu.rs`, stage by stage.
`u16` negation `!x & 0xffff` is xor with `0xFFFF` then a 16-bit mask,
`wrapping_add` followed by `& 0xffff` is addition mod `2^16` then the mask. -/
def aluOperation (op x y : Nat) : Nat × AluFlags :=
  let x := if op &&& 0b100000 ≠ 0 then 0 else x
  let x := if op &&& 0b010000 ≠ 0 then (x ^^^ 0xFFFF) &&& 0xFFFF else x
  let y := if op &&& 0b001000 ≠ 0 then 0 else y
  let y := if op &&& 0b000100 ≠ 0 then (y ^^^ 0xFFFF) &&& 0xFFFF else y
  let result :=
    if op &&& 0b000010 ≠ 0 then ((x + y) % 65536) &&& 0xFFFF else x &&& y
  let result :=
    if op &&& 0b000001 ≠ 0 then (result ^^^ 0xFFFF) &&& 0xFFFF else result
  (result, aluFlagsOf result)

/-- `AluChip::eval` from `alu.rs`, parameterised by the input-pin words and the
control voltages (`voltage == HIGH` on each 1-bit control pin).  It builds the
6-bit op word `(zx << 5) + (nx << 4) + (zy << 3) + (ny << 2) + (f << 1) + no`,
runs `alu_operation` and returns `(out, zr, ng)` where `zr`/`ng` are the
voltages written from the flags. -/
def aluEval (x y : Nat) (zx nx zy ny f no : Bool) : Nat × Nat × Nat :=
  let zxn : Nat := if zx then 1 else 0
  let nxn : Nat := if nx then 1 else 0
  let zyn : Nat := if zy then 1 else 0
  let nyn : Nat := if ny then 1 else 0
  let fn : Nat := if f then 1 else 0
  let non : Nat := if no then 1 else 0
  let op := (zxn <<< 5) + (nxn <<< 4) + (zyn <<< 3) + (nyn <<< 2) + (fn <<< 1) + non
  let r := aluOperation op x y
  (r.1, if r.2 = AluFlags.Zero then HIGH else LOW,
    if r.2 = AluFlags.Negative then HIGH else LOW)

/-- The staged ALU computation exactly as the specification words it:
if zx then x←0; if nx then x←¬x; if zy then y←0; if ny then y←¬y;
r ← (x+y) mod 2¹⁶ if f=1 else x∧y; if no then r←¬r — where `¬` is the
bitwise complement of a 16-bit value, i.e. `65535 - v`. -/
def specAluStaged (x y : Nat) (zx nx zy ny f no : Bool) : Nat :=
  let x := if zx then 0 else x
  let x := if nx then 65535 - x else x
  let y := if zy then 0 else y
  let y := if ny then 65535 - y else y
  let r := if f then (x + y) % 65536 else x &&& y
  if no then 65535 - r else r

/-- `Ram8Chip` from `ram8.rs`: the pin buses, the backing `Memory`, and the
clocked-state fields. -/
structure Ram8 where
  memory : Memory
  nextData : Nat
  currentAddress : Nat
  inPin : Bus
  loadPin : Bus
  addressPin : Bus
  outPin : Bus
  deriving DecidableEq, Repr

/-- `Ram8Chip::new()`. -/
def Ram8.new : Ram8 :=
  { memory := Memory.new 8, nextData := 0, currentAddress := 0,
    inPin := Bus.new 16, loadPin := Bus.new 1,
    addressPin := Bus.new 3, outPin := Bus.new 16 }

/-- `Ram8Chip::eval`: masks the address to 3 bits, and — when the load pin's
voltage is `HIGH` — writes the input word into memory before outputting the
word at the (masked) address.  `voltage(None)` reads bit 0 of the load pin. -/
def Ram8.eval (c : Ram8) : Ram8 :=
  let address := c.addressPin.busVoltage &&& 0b111
  let load := c.loadPin.state.getD 0 LOW
  let memory :=
    if load = HIGH then c.memory.set address c.inPin.busVoltage else c.memory
  { c with memory := memory,
           outPin := c.outPin.setBusVoltage (memory.get address) }

/-- `ClockedChip::tick` for `Ram8Chip`: record the masked address; when load
is `HIGH`, sample the input word and write it to memory. -/
def Ram8.tick (c : Ram8) : Ram8 :=
  let load := c.loadPin.state.getD 0 LOW
  let address := c.addressPin.busVoltage &&& 0b111
  if load = HIGH then
    let nextData := c.inPin.busVoltage
    { c with currentAddress := address, nextData := nextData,
             memory := c.memory.set address nextData }
  else
    { c with currentAddress := address }

/-- `ClockedChip::tock` for `Ram8Chip`: publish the word at the recorded
address on the out pin. -/
def Ram8.tock (c : Ram8) : Ram8 :=
  { c with outPin := c.outPin.setBusVoltage (c.memory.get c.currentAddress) }

/-- `PcChip` from `pc.rs`: the pin buses and the 16-bit counter state. -/
structure Pc where
  bits : Nat
  inPin : Bus
  loadPin : Bus
  incPin : Bus
  resetPin : Bus
  outPin : Bus
  deriving DecidableEq, Repr

/-- `PcChip::new()`. -/
def Pc.new : Pc :=
  { bits := 0, inPin := Bus.new 16, loadPin := Bus.new 1,
    incPin := Bus.new 1, resetPin := Bus.new 1, outPin := Bus.new 16 }

/-- `ClockedChip::tick` for `PcChip`: priority reset > load > inc; otherwise
the state is unchanged.  `wrapping_add(1) & 0xffff` on the `u16` state is
`(bits + 1) % 65536`; the loaded input word is masked with `& 0xffff`. -/
def Pc.tick (c : Pc) : Pc :=
  let reset := c.resetPin.state.getD 0 LOW
  let load := c.loadPin.state.getD 0 LOW
  let inc := c.incPin.state.getD 0 LOW
  if reset = HIGH then { c with bits := 0 }
  else if load = HIGH then { c with bits := c.inPin.busVoltage &&& 0xFFFF }
  else if inc = HIGH then { c with bits := (c.bits + 1) % 65536 }
  else c

/-- `ClockedChip::tock` for `PcChip`: publish the state on the out pin. -/
def Pc.tock (c : Pc) : Pc :=
  { c with outPin := c.outPin.setBusVoltage c.bits }

/-- The three pin maps of a chip (`HashMap<String, pin>` in the source,
modelled as association lists with pins as abstract handles). -/
structure PinMaps where
  inputPins : List (String × Nat)
  outputPins : List (String × Nat)
  internalPins : List (String × Nat)
  deriving DecidableEq, Repr

/-- `Chip::get_pin` for composite chips (`chip.rs`): input pins, then output
pins, then internal pins; when absent it returns a `Hardware` error (whose
message reports the pin as not found). -/
def chipGetPin (c : PinMaps) (name : String) : Except SimulatorError Nat :=
  match c.inputPins.lookup name with
  | some pin => .ok pin
  | none =>
    match c.outputPins.lookup name with
    | some pin => .ok pin
    | none =>
      match c.internalPins.lookup name with
      | some pin => .ok pin
      | none => .error (.Hardware "Pin not found in chip")

/-- `get_pin` from the `impl_chip_interface_boilerplate!` macro used by the
built-in chips (`builtins/mod.rs`): input pins, then output pins — the
internal-pin map is never consulted — and a `Hardware` error when absent. -/
def builtinGetPin (c : PinMaps) (name : String) : Except SimulatorError Nat :=
  match c.inputPins.lookup name with
  | some pin => .ok pin
  | none =>
    match c.outputPins.lookup name with
    | some pin => .ok pin
    | none => .error (.Hardware "Pin not found in builtin chip")

/-- `get_pin` as hand-written in the sequential and computer built-ins other
than the DFF (`ram8.rs`, `pc.rs`, `bit.rs`, `register.rs`, `ram64.rs`,
`ram512.rs`, `ram16k.rs`, `screen.rs`, `keyboard.rs`, `rom32k.rs`): input
pins, then output pins — the internal-pin map is not consulted — and the
`PinNotFound` error variant when absent. -/
def ram8GetPin (c : PinMaps) (chipName name : String) :
    Except SimulatorError Nat :=
  match c.inputPins.lookup name with
  | some pin => .ok pin
  | none =>
    match c.outputPins.lookup name with
    | some pin => .ok pin
    | none => .error (.PinNotFound name chipName)

/-- `DffChip::get_pin` (`dff.rs`): unlike the other hand-written built-ins it
searches input pins, then output pins, then internal pins (the DFF owns the
internal pin `"t"`), and fails with the `PinNotFound` error variant. -/
def dffGetPin (c : PinMaps) (chipName name : String) :
    Except SimulatorError Nat :=
  match c.inputPins.lookup name with
  | some pin => .ok pin
  | none =>
    match c.outputPins.lookup name with
    | some pin => .ok pin
    | none =>
      match c.internalPins.lookup name with
      | some pin => .ok pin
      | none => .error (.PinNotFound name chipName)

/-- A `Ram8Chip` state reachable by writing the input pins: load pulled
`HIGH`, input word 5, address 0. -/
def ram8LoadedState : Ram8 :=
  { Ram8.new with loadPin := (Bus.new 1).setBusVoltage 1,
                  inPin := (Bus.new 16).setBusVoltage 5 }

/-- A `PcChip` state with `in = 0x500` and load, inc and reset all `HIGH`. -/
def pcResetState : Pc :=
  { Pc.new with bits := 7,
                inPin := (Bus.new 16).setBusVoltage 0x500,
                loadPin := (Bus.new 1).setBusVoltage 1,
                incPin := (Bus.new 1).setBusVoltage 1,
                resetPin := (Bus.new 1).setBusVoltage 1 }

/-- Pin maps shaped like a chip with one input, one output and one internal
pin, used to exercise the pin-lookup order. -/
def samplePinMaps : PinMaps :=
  { inputPins := [("a", 1)], outputPins := [("out", 2)], internalPins := [("w", 3)] }

/-- The pin maps of `DffChip::new()` (`dff.rs`): input `in`, output `out`,
internal `t`. -/
def dffPinMaps : PinMaps :=
  { inputPins := [("in", 1)], outputPins := [("out", 2)], internalPins := [("t", 3)] }

/-- An `InSubBus` over a 16-bit parent holding `0xABCD`, at offset 4 and
width 4 (the configuration of the `subbus.rs` unit test). -/
def sampleSubBus : InSubBus :=
  { parent := (Bus.new 16).setBusVoltage 0xABCD, start := 4, width := 4 }

/-! ### General lemmas about the signal layer -/

theorem length_stateOfWord (w v : Nat) : (stateOfWord w v).length = w := by
  induction w generalizing v with
  | zero => rfl
  | succ w ih => simp [stateOfWord, ih]

theorem wordOfState_stateOfWord (w v : Nat) :
    wordOfState (stateOfWord w v) = v % 2 ^ w := by
  induction w generalizing v with
  | zero => simp [stateOfWord, wordOfState, Nat.mod_one]
  | succ w ih =>
    have h2 : (2 : Nat) ^ (w + 1) = 2 * 2 ^ w := by ring
    rw [stateOfWord, wordOfState, ih, h2, Nat.mod_mul]
    rcases Nat.mod_two_eq_zero_or_one v with h | h <;> simp [h, HIGH, LOW]

theorem wordOfState_lt (l : List Nat) : wordOfState l < 2 ^ l.length := by
  induction l with
  | nil => simp [wordOfState]
  | cons v rest ih =>
    have h2 : (2 : Nat) ^ (rest.length + 1) = 2 * 2 ^ rest.length := by ring
    simp only [wordOfState, List.length_cons, h2]
    split <;> omega

theorem getD_stateOfWord (w v i : Nat) (h : i < w) :
    (stateOfWord w v).getD i LOW = if v.testBit i then HIGH else LOW := by
  induction w generalizing v i with
  | zero => omega
  | succ w ih =>
    cases i with
    | zero =>
      simp [stateOfWord, Nat.testBit_zero]
    | succ i =>
      have := ih (v / 2) i (by omega)
      simpa [stateOfWord, ← Nat.testBit_div_two] using this

theorem land_two_pow_sub_one (x n : Nat) : x &&& (2 ^ n - 1) = x % 2 ^ n := by
  apply Nat.eq_of_testBit_eq
  intro i
  simp only [Nat.testBit_and, Nat.testBit_mod_two_pow, Nat.testBit_two_pow_sub_one]
  exact Bool.and_comm _ _

theorem land_ffff_eq_mod (x : Nat) : x &&& 0xFFFF = x % 65536 := by
  have := land_two_pow_sub_one x 16
  norm_num at this
  exact this

theorem mask16_eq {w : Nat} (h : w ≤ 16) : mask16 w = 2 ^ w - 1 := by
  unfold mask16
  split
  · have h16 : w = 16 := by omega
    subst h16; rfl
  · rw [Nat.shiftLeft_eq, Nat.one_mul]

theorem xor_two_pow_sub_one (n : Nat) :
    ∀ x, x < 2 ^ n → x ^^^ (2 ^ n - 1) = 2 ^ n - 1 - x := by
  induction n with
  | zero =>
    intro x hx
    have hx0 : x = 0 := by omega
    subst hx0; rfl
  | succ n ih =>
    intro x hx
    have hpow : (2 : Nat) ^ (n + 1) = 2 * 2 ^ n := by ring
    have hp : (0 : Nat) < 2 ^ n := Nat.pos_pow_of_pos n (by omega)
    have hmod : (x ^^^ (2 ^ (n + 1) - 1)) % 2 = (x + (2 ^ (n + 1) - 1)) % 2 :=
      Nat.xor_mod_two_eq
    have hdiv : (x ^^^ (2 ^ (n + 1) - 1)) / 2 = (x / 2) ^^^ ((2 ^ (n + 1) - 1) / 2) :=
      Nat.xor_div_two
    have hd2 : (2 ^ (n + 1) - 1) / 2 = 2 ^ n - 1 := by omega
    rw [hd2] at hdiv
    have hx2 : x / 2 < 2 ^ n := by omega
    rw [ih (x / 2) hx2] at hdiv
    have ha := Nat.div_add_mod (x ^^^ (2 ^ (n + 1) - 1)) 2
    omega

theorem xor_ffff_masked (z : Nat) :
    (z ^^^ 0xFFFF) &&& 0xFFFF = 65535 - z % 65536 := by
  have h1 : (z ^^^ 0xFFFF) &&& 0xFFFF = (z ^^^ 0xFFFF) % 65536 :=
    land_ffff_eq_mod _
  have h2 : (z ^^^ 0xFFFF) % 65536 = (z % 65536) ^^^ 0xFFFF := by
    apply Nat.eq_of_testBit_eq
    intro i
    have hff : (0xFFFF : Nat) = 2 ^ 16 - 1 := by norm_num
    have h65536 : (65536 : Nat) = 2 ^ 16 := by norm_num
    rw [hff, h65536]
    simp only [Nat.testBit_mod_two_pow, Nat.testBit_xor, Nat.testBit_two_pow_sub_one]
    by_cases hi : i < 16 <;> simp [hi]
  have h3 := xor_two_pow_sub_one 16 (z % 65536) (by omega)
  norm_num at h3
  rw [h1, h2, h3]

theorem clock_tickN_eq (n : Nat) :
    ∀ c : Clock, c.level = LOW ∨ c.level = HIGH →
    (c.tickN n).ticks = c.ticks + n ∧
    (c.tickN n).level =
      (if n % 2 = 0 then c.level else if c.level = LOW then HIGH else LOW) := by
  induction n with
  | zero => intro c _; simp [Clock.tickN]
  | succ n ih =>
    intro c hlv
    have hlv2 : (c.tick).level = LOW ∨ (c.tick).level = HIGH := by
      rcases hlv with h | h <;> simp [Clock.tick, h, HIGH, LOW]
    obtain ⟨h1, h2⟩ := ih c.tick hlv2
    have hstep : c.tickN (n + 1) = (c.tick).tickN n := rfl
    rw [hstep, h1, h2]
    constructor
    · simp [Clock.tick]; omega
    · by_cases hn : n % 2 = 0
      · have hp : ¬(n + 1) % 2 = 0 := by omega
        rw [if_pos hn, if_neg hp]
        rfl
      · have hp : (n + 1) % 2 = 0 := by omega
        rw [if_neg hn, if_pos hp]
        rcases hlv with h | h <;> simp [Clock.tick, h, HIGH, LOW]

/-! ### Claim theorems -/

/-- C2 (counterexample): after two `tick()` calls on a fresh clock the
counter is 2, but the claim says it equals the number of low→high
transitions, ⌈2/2⌉ = 1. -/
theorem c2_clock_ticks_counterexample :
    (Clock.new.tickN 2).ticks = 2 ∧ (Clock.new.tickN 2).ticks ≠ (2 + 1) / 2 := by
  decide

/-- C2 (amended): for a freshly constructed clock (level low, counter zero)
and every number `n` of consecutive `tick()` calls, the level after the calls
is high exactly when `n` is odd, and the tick counter equals `n`: it is
incremented on every `tick()` call (both edges), not only on the low→high
transition. -/
theorem clock_tickN_spec (n : Nat) :
    (Clock.new.tickN n).level = (if n % 2 = 1 then HIGH else LOW) ∧
    (Clock.new.tickN n).ticks = n := by
  obtain ⟨h1, h2⟩ := clock_tickN_eq n Clock.new (Or.inl rfl)
  refine ⟨?_, by simpa [Clock.new] using h1⟩
  rw [h2]
  have hpar : n % 2 = 0 ∨ n % 2 = 1 := by omega
  rcases hpar with h | h <;> simp [h, Clock.new, HIGH, LOW]

/-- C9: `Memory::get` returns the stored word in bounds and the `0xFFFF`
sentinel out of bounds; `Memory::set` writes the value masked to 16 bits in
bounds, is a no-op out of bounds, and never perturbs any other cell.  Both
operations are total functions (no failure or panic). -/
theorem memory_get_set_spec (m : Memory) (a b v : Nat)
    (hwf : m.data.length = m.size) :
    (a ≥ m.size → m.get a = 0xFFFF) ∧
    (a < m.size → (m.set a v).get a = v % 65536) ∧
    (a ≥ m.size → m.set a v = m) ∧
    (b ≠ a → (m.set a v).get b = m.get b) := by
  refine ⟨?_, ?_, ?_, ?_⟩
  · intro h; simp [Memory.get, h]
  · intro h
    simp only [Memory.set, if_pos h, Memory.get]
    rw [if_neg (by omega)]
    rw [List.getD_eq_getElem?_getD, List.getElem?_set_self (by omega)]
    simp [land_ffff_eq_mod]
  · intro h
    simp only [Memory.set]
    rw [if_neg (by omega)]
  · intro hne
    simp only [Memory.set, Memory.get]
    split
    · by_cases hb : b ≥ m.size
      · rw [if_pos hb, if_pos hb]
      · rw [if_neg hb, if_neg hb]
        rw [List.getD_eq_getElem?_getD, List.getD_eq_getElem?_getD,
          List.getElem?_set_ne (by omega)]
    · rfl

/-- C9 (witness): the memory behaviour evaluated on `Memory::new(8)`. -/
theorem memory_get_set_spec_witness :
    ((Memory.new 8).set 2 70000).get 2 = 70000 % 65536 ∧
    (Memory.new 8).get 9 = 0xFFFF ∧
    (Memory.new 8).set 9 5 = Memory.new 8 ∧
    ((Memory.new 8).set 2 70000).get 3 = (Memory.new 8).get 3 :=
  ⟨(memory_get_set_spec (Memory.new 8) 2 3 70000 (by decide)).2.1 (by decide),
   (memory_get_set_spec (Memory.new 8) 9 0 0 (by decide)).1 (by decide),
   (memory_get_set_spec (Memory.new 8) 9 0 5 (by decide)).2.2.1 (by decide),
   (memory_get_set_spec (Memory.new 8) 2 3 70000 (by decide)).2.2.2 (by decide)⟩

/-- C6 (counterexample): on a composite chip whose three pin maps are all
empty, `get_pin("sel")` fails — but with the `Hardware` error variant of
`SimulatorError`, not the `PinNotFound` variant the claim names. -/
theorem c6_get_pin_counterexample :
    chipGetPin ⟨[], [], []⟩ "sel" = .error (.Hardware "Pin not found in chip") ∧
    failedWithPinNotFound (chipGetPin ⟨[], [], []⟩ "sel") = false := by
  exact ⟨rfl, rfl⟩

/-- C6 (amended): composite `Chip::get_pin` and the DFF built-in's `get_pin`
search input, output, then internal pins in that order and return the first
match; when the name is absent from all three maps the composite fails with a
`Hardware`-kind error (whose message reports the pin as not found) while the
DFF fails with the `PinNotFound` error variant.  Every other built-in
searches only input then output pins — the internal map is not consulted —
and fails with a `Hardware` error (the macro-generated built-ins) or with the
`PinNotFound` variant (the other hand-written sequential and computer
built-ins such as RAM8 and PC). -/
theorem get_pin_search_order (c : PinMaps) (chip name : String) (p : Nat) :
    (c.inputPins.lookup name = some p →
      chipGetPin c name = .ok p ∧ builtinGetPin c name = .ok p ∧
      ram8GetPin c chip name = .ok p ∧ dffGetPin c chip name = .ok p) ∧
    (c.inputPins.lookup name = none → c.outputPins.lookup name = some p →
      chipGetPin c name = .ok p ∧ builtinGetPin c name = .ok p ∧
      ram8GetPin c chip name = .ok p ∧ dffGetPin c chip name = .ok p) ∧
    (c.inputPins.lookup name = none → c.outputPins.lookup name = none →
      c.internalPins.lookup name = some p →
      chipGetPin c name = .ok p ∧ dffGetPin c chip name = .ok p) ∧
    (c.inputPins.lookup name = none → c.outputPins.lookup name = none →
      c.internalPins.lookup name = none →
      chipGetPin c name = .error (.Hardware "Pin not found in chip") ∧
      dffGetPin c chip name = .error (.PinNotFound name chip)) ∧
    (c.inputPins.lookup name = none → c.outputPins.lookup name = none →
      builtinGetPin c name = .error (.Hardware "Pin not found in builtin chip") ∧
      ram8GetPin c chip name = .error (.PinNotFound name chip)) := by
  refine ⟨?_, ?_, ?_, ?_, ?_⟩
  · intro h
    simp [chipGetPin, builtinGetPin, ram8GetPin, dffGetPin, h]
  · intro h1 h2
    simp [chipGetPin, builtinGetPin, ram8GetPin, dffGetPin, h1, h2]
  · intro h1 h2 h3
    simp [chipGetPin, dffGetPin, h1, h2, h3]
  · intro h1 h2 h3
    simp [chipGetPin, dffGetPin, h1, h2, h3]
  · intro h1 h2
    simp [builtinGetPin, ram8GetPin, h1, h2]

/-- C6 (witness): the lookup order evaluated on concrete pin maps — the
internal pin `"w"` is found by the composite lookup but makes the macro
built-in lookup fail with a `Hardware` error and `ram8GetPin` fail with
`PinNotFound`, while on the DFF's own pin maps `get_pin("t")` succeeds and an
absent name fails with `PinNotFound`. -/
theorem get_pin_search_order_witness :
    chipGetPin samplePinMaps "w" = .ok 3 ∧
    builtinGetPin samplePinMaps "w" =
      .error (.Hardware "Pin not found in builtin chip") ∧
    ram8GetPin samplePinMaps "RAM8" "w" = .error (.PinNotFound "w" "RAM8") ∧
    chipGetPin samplePinMaps "a" = .ok 1 ∧
    chipGetPin samplePinMaps "out" = .ok 2 ∧
    dffGetPin dffPinMaps "DFF" "t" = .ok 3 ∧
    dffGetPin dffPinMaps "DFF" "sel" = .error (.PinNotFound "sel" "DFF") :=
  ⟨((get_pin_search_order samplePinMaps "RAM8" "w" 3).2.2.1 (by decide)
      (by decide) (by decide)).1,
   ((get_pin_search_order samplePinMaps "RAM8" "w" 3).2.2.2.2 (by decide)
      (by decide)).1,
   ((get_pin_search_order samplePinMaps "RAM8" "w" 3).2.2.2.2 (by decide)
      (by decide)).2,
   ((get_pin_search_order samplePinMaps "RAM8" "a" 1).1 (by decide)).1,
   (((get_pin_search_order samplePinMaps "RAM8" "out" 2).2.1 (by decide)
      (by decide)).1),
   ((get_pin_search_order dffPinMaps "DFF" "t" 3).2.2.1 (by decide) (by decide)
      (by decide)).2,
   ((get_pin_search_order dffPinMaps "DFF" "sel" 3).2.2.2.1 (by decide)
      (by decide) (by decide)).2⟩

/-- C8 (counterexample): the wiring engine's `resolve_pin_side` creates the
`true` constant as an ordinary writable 1-bit `Bus`; writing 0 to it changes
its observed value from 1 to 0, so writes to it are not dropped. -/
theorem c8_constant_counterexample :
    resolvePinSideTrue.busVoltage = 1 ∧
    (resolvePinSideTrue.setBusVoltage 0).busVoltage = 0 := by
  decide

/-- C8 (amended): builder-created constant nodes (`ConstantPin`) have width 1
and a value fixed at creation (1 for true, 0 for false), and `set_bus_voltage`,
`pull` and `toggle` are silently dropped on them; the wiring engine's
`resolve_pin_side`, however, creates its `true`/`false` nodes as ordinary
writable 1-bit buses that are merely initialized to the constant value —
later writes are applied, not dropped. -/
theorem constant_pin_spec (c : ConstantPin) (v : Nat) (bit : Option Nat) :
    ConstantPin.new "true" = .ok { name := "true", voltage := HIGH } ∧
    ConstantPin.new "false" = .ok { name := "false", voltage := LOW } ∧
    c.width = 1 ∧
    c.setBusVoltage v = c ∧
    c.pull v bit = (c, .ok ()) ∧
    c.toggle bit = (c, .ok ()) ∧
    resolvePinSideTrue.width = 1 ∧ resolvePinSideTrue.busVoltage = 1 ∧
    resolvePinSideFalse.width = 1 ∧ resolvePinSideFalse.busVoltage = 0 ∧
    (resolvePinSideTrue.setBusVoltage v).busVoltage = v % 2 := by
  refine ⟨rfl, rfl, rfl, rfl, rfl, rfl, rfl, by decide, rfl, by decide, ?_⟩
  have h := wordOfState_stateOfWord 1 v
  simpa [Bus.busVoltage, Bus.setBusVoltage, resolvePinSideTrue, Bus.new,
    stateOfWord] using h

/-- C3 (counterexample): `Ram8Chip::eval` with load=1, in=5, address=0 writes
the memory array — cell 0 becomes 5 — so eval does not leave memory intact. -/
theorem c3_ram8_eval_counterexample :
    (ram8LoadedState.eval).memory ≠ ram8LoadedState.memory ∧
    (ram8LoadedState.eval).memory.get 0 = 5 := by
  decide

/-- C3 (amended): `Ram8Chip::eval` reads the input pins and writes the out
pin, but when load=1 it also writes `memory[address & 7] ← in` (the same
update `tick` performs); only when load=0 is the memory array unchanged by
`eval`.  `tick` writes memory exactly when load=1, and `tock` never writes
memory. -/
theorem ram8_eval_tick_memory_spec (c : Ram8) :
    (c.loadPin.state.getD 0 LOW ≠ HIGH → (c.eval).memory = c.memory) ∧
    (c.loadPin.state.getD 0 LOW = HIGH →
      (c.eval).memory =
        c.memory.set (c.addressPin.busVoltage &&& 0b111) c.inPin.busVoltage) ∧
    (c.loadPin.state.getD 0 LOW ≠ HIGH → (c.tick).memory = c.memory) ∧
    (c.loadPin.state.getD 0 LOW = HIGH →
      (c.tick).memory =
        c.memory.set (c.addressPin.busVoltage &&& 0b111) c.inPin.busVoltage) ∧
    (c.tock).memory = c.memory := by
  refine ⟨?_, ?_, ?_, ?_, rfl⟩
  · intro h
    simp only [Ram8.eval]
    rw [if_neg h]
  · intro h
    simp only [Ram8.eval]
    rw [if_pos h]
  · intro h
    simp only [Ram8.tick]
    rw [if_neg h]
  · intro h
    simp only [Ram8.tick]
    rw [if_pos h]

/-- C3 (witness): the memory frame evaluated on concrete RAM8 states: a fresh
chip's eval leaves memory unchanged; with load=1 and in=5 eval performs the
store. -/
theorem ram8_eval_tick_memory_witness :
    (Ram8.new.eval).memory = Ram8.new.memory ∧
    (ram8LoadedState.eval).memory = ram8LoadedState.memory.set 0 5 :=
  ⟨(ram8_eval_tick_memory_spec Ram8.new).1 (by decide),
   ((ram8_eval_tick_memory_spec ram8LoadedState).2.1 (by decide)).trans
     (by decide)⟩

/-- C4: the PC built-in's `tick` sets its state to 0 if reset=1, else to the
input word (mod 2¹⁶) if load=1, else to (s+1) mod 2¹⁶ if inc=1, else leaves
it unchanged; `tock` publishes the state on the out pin; and whenever reset=1
at tick, the out word after the following tock is 0 regardless of load, inc
and in. -/
theorem pc_tick_tock_spec (c : Pc) :
    (c.resetPin.state.getD 0 LOW = HIGH → (c.tick).bits = 0) ∧
    (c.resetPin.state.getD 0 LOW ≠ HIGH → c.loadPin.state.getD 0 LOW = HIGH →
      (c.tick).bits = c.inPin.busVoltage % 65536) ∧
    (c.resetPin.state.getD 0 LOW ≠ HIGH → c.loadPin.state.getD 0 LOW ≠ HIGH →
      c.incPin.state.getD 0 LOW = HIGH → (c.tick).bits = (c.bits + 1) % 65536) ∧
    (c.resetPin.state.getD 0 LOW ≠ HIGH → c.loadPin.state.getD 0 LOW ≠ HIGH →
      c.incPin.state.getD 0 LOW ≠ HIGH → (c.tick).bits = c.bits) ∧
    (c.tock).outPin.busVoltage = c.bits % 2 ^ c.outPin.width ∧
    (c.resetPin.state.getD 0 LOW = HIGH →
      ((c.tick).tock).outPin.busVoltage = 0) := by
  refine ⟨?_, ?_, ?_, ?_, ?_, ?_⟩
  · intro h
    simp only [Pc.tick]
    rw [if_pos h]
  · intro h1 h2
    simp only [Pc.tick]
    rw [if_neg h1, if_pos h2, land_ffff_eq_mod]
  · intro h1 h2 h3
    simp only [Pc.tick]
    rw [if_neg h1, if_neg h2, if_pos h3]
  · intro h1 h2 h3
    simp only [Pc.tick]
    rw [if_neg h1, if_neg h2, if_neg h3]
  · simp only [Pc.tock, Bus.busVoltage, Bus.setBusVoltage]
    exact wordOfState_stateOfWord _ _
  · intro h
    simp only [Pc.tick, Pc.tock, Bus.busVoltage, Bus.setBusVoltage]
    rw [if_pos h]
    simp [wordOfState_stateOfWord]

/-- C4 (witness): with in=0x500, load=inc=reset=1 and state 7, tick+tock
drives out to 0 — reset dominates (spec scenario 5). -/
theorem pc_tick_tock_spec_witness :
    ((pcResetState.tick).tock).outPin.busVoltage = 0 ∧
    (pcResetState.tick).bits = 0 :=
  ⟨(pc_tick_tock_spec pcResetState).2.2.2.2.2 (by decide),
   (pc_tick_tock_spec pcResetState).1 (by decide)⟩

/-- C10: on a bus of width W, `set_word(v)` with `v < 2^W` round-trips through
`get_word`, and `get_bit(i)` then reads bit i of v; `set_bit(i, b)` makes
`get_bit(i)` read b; `set_word` is a total function (it never fails at the
word level), while `get_bit`, `set_bit` and `toggle` with `i ≥ W` fail with a
`Hardware` error and return the bus state unchanged. -/
theorem bus_ops_spec (b : Bus) (v i bv : Nat) (hwf : b.state.length = b.width) :
    (v < 2 ^ b.width → (b.setBusVoltage v).busVoltage = v) ∧
    (i < b.width →
      (b.setBusVoltage v).voltage (some i) =
        .ok (if v.testBit i then HIGH else LOW)) ∧
    (i < b.width →
      (b.pull bv (some i)).2 = .ok () ∧
      ((b.pull bv (some i)).1).voltage (some i) = .ok bv) ∧
    (i ≥ b.width →
      b.voltage (some i) = .error (.Hardware "Bit out of bounds for bus") ∧
      b.pull bv (some i) = (b, .error (.Hardware "Bit out of bounds for bus")) ∧
      b.toggle (some i) = (b, .error (.Hardware "Bit out of bounds for bus"))) := by
  refine ⟨?_, ?_, ?_, ?_⟩
  · intro hv
    simp only [Bus.setBusVoltage, Bus.busVoltage]
    rw [wordOfState_stateOfWord, Nat.mod_eq_of_lt hv]
  · intro hi
    simp only [Bus.setBusVoltage, Bus.voltage, Option.getD_some]
    rw [if_neg (by omega)]
    rw [getD_stateOfWord _ _ _ hi]
  · intro hi
    constructor
    · simp only [Bus.pull, Option.getD_some]
      rw [if_neg (by omega)]
    · simp only [Bus.pull, Option.getD_some]
      rw [if_neg (by omega)]
      simp only [Bus.voltage, Option.getD_some]
      rw [if_neg (by omega)]
      rw [List.getD_eq_getElem?_getD, List.getElem?_set_self (by omega)]
      rfl
  · intro hi
    refine ⟨?_, ?_, ?_⟩
    · simp only [Bus.voltage, Option.getD_some]
      rw [if_pos (by omega)]
    · simp only [Bus.pull, Option.getD_some]
      rw [if_pos (by omega)]
    · simp only [Bus.toggle, Bus.voltage, Option.getD_some]
      rw [if_pos (by omega)]

/-- C10 (witness): the bus operations evaluated on `Bus::new(3)`. -/
theorem bus_ops_spec_witness :
    ((Bus.new 3).setBusVoltage 5).busVoltage = 5 ∧
    ((Bus.new 3).setBusVoltage 5).voltage (some 1) = .ok LOW ∧
    (((Bus.new 3).pull 1 (some 1)).1).voltage (some 1) = .ok 1 ∧
    (Bus.new 3).toggle (some 7) =
      (Bus.new 3, .error (.Hardware "Bit out of bounds for bus")) :=
  ⟨(bus_ops_spec (Bus.new 3) 5 1 1 (by decide)).1 (by decide),
   ((bus_ops_spec (Bus.new 3) 5 1 1 (by decide)).2.1 (by decide)).trans (by rfl),
   ((bus_ops_spec (Bus.new 3) 5 1 1 (by decide)).2.2.1 (by decide)).2,
   ((bus_ops_spec (Bus.new 3) 5 7 1 (by decide)).2.2.2 (by decide)).2.2⟩

theorem net_setWord_getLast (m : Net) (b : Bus) (v : Nat)
    (h : m.listeners.getLast? = some b) :
    (m.setWord v).listeners.getLast? = some (b.setBusVoltage v) := by
  simp [Net.setWord, List.getLast?_map, h]

theorem net_fold_last_width (ws : List Nat) :
    ∀ (m : Net) (b : Bus), m.listeners.getLast? = some b →
    ∃ b2 : Bus, (ws.foldl Net.setWord m).listeners.getLast? = some b2 ∧
      b2.width = b.width := by
  induction ws with
  | nil => exact fun m b h => ⟨b, h, rfl⟩
  | cons w ws ih =>
    intro m b h
    obtain ⟨b2, h2, hw2⟩ := ih (m.setWord w) (b.setBusVoltage w)
      (net_setWord_getLast m b w h)
    exact ⟨b2, h2, by simpa [Bus.setBusVoltage] using hw2⟩

theorem net_fold_parent_width (ws : List Nat) :
    ∀ m : Net, (ws.foldl Net.setWord m).parent.width = m.parent.width := by
  induction ws with
  | nil => intro m; rfl
  | cons w ws ih =>
    intro m
    simpa [Net.setWord, Bus.setBusVoltage] using ih (m.setWord w)

/-- C7: `connect` immediately writes the bus's current word into the new
listener (projected to the listener's width) and appends it to the listener
list; thereafter every `set_word(v)` — after any number of intervening writes
`ws` — leaves that listener holding `v mod 2^WL`, and the bus itself holding
`v mod 2^W`. -/
theorem net_connect_propagate_spec (n : Net) (l : Bus) (ws : List Nat) (v : Nat) :
    (n.connect l).listeners.getLast? =
      some (l.setBusVoltage n.parent.busVoltage) ∧
    (l.setBusVoltage n.parent.busVoltage).busVoltage =
      n.parent.busVoltage % 2 ^ l.width ∧
    ((ws.foldl Net.setWord (n.connect l)).setWord v).listeners.getLast?.map
      Bus.busVoltage = some (v % 2 ^ l.width) ∧
    ((ws.foldl Net.setWord (n.connect l)).setWord v).parent.busVoltage =
      v % 2 ^ (n.parent.width) := by
  refine ⟨by simp [Net.connect], ?_, ?_, ?_⟩
  · simp only [Bus.setBusVoltage, Bus.busVoltage]
    exact wordOfState_stateOfWord _ _
  · have hlast : (n.connect l).listeners.getLast? =
        some (l.setBusVoltage n.parent.busVoltage) := by simp [Net.connect]
    obtain ⟨b2, h2, hw2⟩ :=
      net_fold_last_width ws (n.connect l) _ hlast
    rw [net_setWord_getLast _ _ _ h2]
    have hwidth : b2.width = l.width := by
      simpa [Bus.setBusVoltage] using hw2
    simp only [Option.map_some', Bus.setBusVoltage, Bus.busVoltage, hwidth]
    rw [wordOfState_stateOfWord]
  · have hpw := net_fold_parent_width ws (n.connect l)
    simp only [Net.setWord, Bus.setBusVoltage, Bus.busVoltage]
    rw [wordOfState_stateOfWord, hpw]
    rfl

/-- C5: writing `v` to an input sub-bus over parent `P` at offset `start` and
width `w` (with `start + w ≤ P.width ≤ 16`) sets bits `[start, start+w)` of
`P`'s word to `v mod 2^w`, leaves every bit of `P` outside `[start, start+w)`
unchanged, and a subsequent read of the sub-bus yields
`(P.word >> start) & (2^w - 1) = v mod 2^w`. -/
theorem insubbus_set_spec (s : InSubBus) (v : Nat)
    (hw : s.start + s.width ≤ s.parent.width)
    (h16 : s.parent.width ≤ 16)
    (hwf : s.parent.state.length = s.parent.width) :
    (∀ i, i < s.start ∨ s.start + s.width ≤ i →
      ((s.setBusVoltage v).parent.busVoltage).testBit i =
        (s.parent.busVoltage).testBit i) ∧
    ((s.setBusVoltage v).parent.busVoltage >>> s.start) &&& (2 ^ s.width - 1) =
      v % 2 ^ s.width ∧
    (s.setBusVoltage v).busVoltage = v % 2 ^ s.width := by
  have hwle : s.width ≤ 16 := by omega
  have hm : mask16 s.width = 2 ^ s.width - 1 := mask16_eq hwle
  have hcur : s.parent.busVoltage < 2 ^ s.parent.width := by
    have := wordOfState_lt s.parent.state
    rwa [hwf] at this
  have hff : (65535 : Nat) = 2 ^ 16 - 1 := by norm_num
  have hnew : (s.setBusVoltage v).parent.busVoltage =
      ((s.parent.busVoltage &&& ((2 ^ 16 - 1) ^^^ ((2 ^ s.width - 1) <<< s.start))) |||
        ((v &&& (2 ^ s.width - 1)) <<< s.start)) % 2 ^ s.parent.width := by
    simp only [InSubBus.setBusVoltage, Bus.setBusVoltage, Bus.busVoltage, hm]
    rw [wordOfState_stateOfWord, hff]
  have hval : ((s.setBusVoltage v).parent.busVoltage >>> s.start) &&&
      (2 ^ s.width - 1) = v % 2 ^ s.width := by
    apply Nat.eq_of_testBit_eq
    intro j
    rw [hnew]
    simp only [Nat.testBit_and, Nat.testBit_shiftRight, Nat.testBit_mod_two_pow,
      Nat.testBit_or, Nat.testBit_xor, Nat.testBit_shiftLeft,
      Nat.testBit_two_pow_sub_one]
    by_cases hj : j < s.width
    · have h1 : s.start + j < s.parent.width := by omega
      have h2 : s.start + j ≥ s.start := by omega
      have h3 : s.start + j - s.start = j := by omega
      have h4 : s.start + j < 16 := by omega
      simp [h1, h2, h3, h4, hj]
    · simp [hj]
  refine ⟨?_, hval, ?_⟩
  · intro i hi
    rw [hnew]
    simp only [Nat.testBit_mod_two_pow, Nat.testBit_or, Nat.testBit_and,
      Nat.testBit_xor, Nat.testBit_shiftLeft, Nat.testBit_two_pow_sub_one]
    by_cases hiW : i < s.parent.width
    · have hi16 : i < 16 := by omega
      rcases hi with hlt | hge
      · have h1 : ¬ i ≥ s.start := by omega
        simp [hiW, hi16, h1]
      · have h2 : i ≥ s.start := by omega
        have h3 : ¬ (i - s.start < s.width) := by omega
        simp [hiW, hi16, h2, h3]
    · have hcuri : (s.parent.busVoltage).testBit i = false :=
        Nat.testBit_lt_two_pow
          (lt_of_lt_of_le hcur (Nat.pow_le_pow_right (by omega) (by omega)))
      simp [hiW, hcuri]
  · have hbv : (s.setBusVoltage v).busVoltage =
        ((s.setBusVoltage v).parent.busVoltage >>> s.start) &&& mask16 s.width := by
      rfl
    rw [hbv, hm]
    exact hval

/-- C5 (witness): writing 5 to `0xABCD[4..7]` gives parent word `0xAB5D`: the
written field reads back 5 and bits 0 and 12 of the parent are unchanged. -/
theorem insubbus_set_spec_witness :
    (sampleSubBus.setBusVoltage 5).busVoltage = 5 ∧
    ((sampleSubBus.setBusVoltage 5).parent.busVoltage).testBit 0 =
      (sampleSubBus.parent.busVoltage).testBit 0 ∧
    ((sampleSubBus.setBusVoltage 5).parent.busVoltage).testBit 12 =
      (sampleSubBus.parent.busVoltage).testBit 12 ∧
    (sampleSubBus.setBusVoltage 5).parent.busVoltage = 0xAB5D :=
  ⟨((insubbus_set_spec sampleSubBus 5 (by decide) (by decide)
      (by decide)).2.2).trans (by decide),
   (insubbus_set_spec sampleSubBus 5 (by decide) (by decide) (by decide)).1 0
     (by decide),
   (insubbus_set_spec sampleSubBus 5 (by decide) (by decide) (by decide)).1 12
     (by decide),
   by decide⟩

theorem xor_ffff_mod (z : Nat) : (z ^^^ 65535) % 65536 = 65535 - z % 65536 := by
  have h := xor_ffff_masked z
  rw [land_ffff_eq_mod] at h
  exact h

theorem sub_ffff_mod (z : Nat) : (65535 - z) % 65536 = 65535 - z :=
  Nat.mod_eq_of_lt (by omega)

theorem sub_ffff_lt (z : Nat) : 65535 - z < 65536 := by omega

theorem and_mod_ffff (a b : Nat) (hb : b < 65536) : (a &&& b) % 65536 = a &&& b :=
  Nat.mod_eq_of_lt (lt_of_le_of_lt Nat.and_le_right hb)

theorem alu_op_tests (zx nx zy ny f no : Bool) :
    ((if zx then (1 : Nat) else 0) <<< 5 + (if nx then (1 : Nat) else 0) <<< 4 +
      (if zy then (1 : Nat) else 0) <<< 3 + (if ny then (1 : Nat) else 0) <<< 2 +
      (if f then (1 : Nat) else 0) <<< 1 + (if no then (1 : Nat) else 0) &&& 32 ≠ 0
        ↔ zx = true) ∧
    ((if zx then (1 : Nat) else 0) <<< 5 + (if nx then (1 : Nat) else 0) <<< 4 +
      (if zy then (1 : Nat) else 0) <<< 3 + (if ny then (1 : Nat) else 0) <<< 2 +
      (if f then (1 : Nat) else 0) <<< 1 + (if no then (1 : Nat) else 0) &&& 16 ≠ 0
        ↔ nx = true) ∧
    ((if zx then (1 : Nat) else 0) <<< 5 + (if nx then (1 : Nat) else 0) <<< 4 +
      (if zy then (1 : Nat) else 0) <<< 3 + (if ny then (1 : Nat) else 0) <<< 2 +
      (if f then (1 : Nat) else 0) <<< 1 + (if no then (1 : Nat) else 0) &&& 8 ≠ 0
        ↔ zy = true) ∧
    ((if zx then (1 : Nat) else 0) <<< 5 + (if nx then (1 : Nat) else 0) <<< 4 +
      (if zy then (1 : Nat) else 0) <<< 3 + (if ny then (1 : Nat) else 0) <<< 2 +
      (if f then (1 : Nat) else 0) <<< 1 + (if no then (1 : Nat) else 0) &&& 4 ≠ 0
        ↔ ny = true) ∧
    ((if zx then (1 : Nat) else 0) <<< 5 + (if nx then (1 : Nat) else 0) <<< 4 +
      (if zy then (1 : Nat) else 0) <<< 3 + (if ny then (1 : Nat) else 0) <<< 2 +
      (if f then (1 : Nat) else 0) <<< 1 + (if no then (1 : Nat) else 0) &&& 2 ≠ 0
        ↔ f = true) ∧
    ((if zx then (1 : Nat) else 0) <<< 5 + (if nx then (1 : Nat) else 0) <<< 4 +
      (if zy then (1 : Nat) else 0) <<< 3 + (if ny then (1 : Nat) else 0) <<< 2 +
      (if f then (1 : Nat) else 0) <<< 1 + (if no then (1 : Nat) else 0) &&& 1 ≠ 0
        ↔ no = true) := by
  cases zx <;> cases nx <;> cases zy <;> cases ny <;> cases f <;> cases no <;>
    decide

theorem aluFlagsOf_spec (r : Nat) :
    (aluFlagsOf r = AluFlags.Zero ↔ r = 0) ∧
    (aluFlagsOf r = AluFlags.Negative ↔ (r ≠ 0 ∧ r &&& 0x8000 ≠ 0)) := by
  unfold aluFlagsOf
  by_cases h0 : r = 0
  · simp [h0]
  · by_cases hneg : r &&& 0x8000 ≠ 0 <;> simp [h0, hneg]

theorem aluOperation_fst_lt (op x y : Nat) (hy : y < 65536) :
    (aluOperation op x y).1 < 65536 := by
  simp only [aluOperation]
  split
  · exact lt_of_le_of_lt Nat.and_le_right (by norm_num)
  · split
    · exact lt_of_le_of_lt Nat.and_le_right (by norm_num)
    · apply lt_of_le_of_lt Nat.and_le_right
      split
      · exact lt_of_le_of_lt Nat.and_le_right (by norm_num)
      · split <;> omega

theorem and_8000_iff (r : Nat) (hr : r < 65536) :
    (r &&& 0x8000 ≠ 0 ↔ r.testBit 15 = true) ∧
    (r &&& 0x8000 ≠ 0 ↔ 0x8000 ≤ r) := by
  have h1 : r &&& 0x8000 = (r.testBit 15).toNat * 32768 := by
    have h := Nat.and_two_pow r 15
    norm_num at h
    exact h
  have h2 : r.testBit 15 = decide (r / 32768 % 2 = 1) := by
    have h := Nat.testBit_to_div_mod (x := r) (i := 15)
    norm_num at h
    exact h
  constructor
  · rw [h1]
    cases hb : r.testBit 15 <;> simp
  · rw [h1]
    cases hb : r.testBit 15 <;> rw [hb] at h2 <;> simp at h2 ⊢ <;> omega

theorem aluEval_out_eq (x y : Nat) (zx nx zy ny f no : Bool)
    (hx : x < 65536) (hy : y < 65536) :
    (aluEval x y zx nx zy ny f no).1 = specAluStaged x y zx nx zy ny f no := by
  obtain ⟨t32, t16, t8, t4, t2, t1⟩ := alu_op_tests zx nx zy ny f no
  simp only [aluEval, aluOperation, specAluStaged]
  simp only [t32, t16, t8, t4, t2, t1]
  cases zx <;> cases nx <;> cases zy <;> cases ny <;> cases f <;> cases no <;>
    simp [land_ffff_eq_mod, xor_ffff_mod, sub_ffff_mod, sub_ffff_lt,
      and_mod_ffff, hx, hy, Nat.mod_eq_of_lt hx, Nat.mod_eq_of_lt hy]

theorem ite_high_iff (P : Prop) [Decidable P] :
    (if P then HIGH else LOW) = HIGH ↔ P := by
  by_cases h : P <;> simp [h, HIGH, LOW]

/-- C1: for every 16-bit x and y and every assignment of the six control
bits, `eval` on the ALU built-in computes `out` as the staged computation of
the specification (zero/complement the operands, then add mod 2¹⁶ or
bitwise-and, then optionally complement), `zr = 1` exactly when `out = 0`,
and `ng = 1` exactly when bit 15 of `out` is set, equivalently when
`out ≥ 0x8000`. -/
theorem alu_eval_spec (x y : Nat) (zx nx zy ny f no : Bool)
    (hx : x < 65536) (hy : y < 65536) :
    (aluEval x y zx nx zy ny f no).1 = specAluStaged x y zx nx zy ny f no ∧
    ((aluEval x y zx nx zy ny f no).2.1 = HIGH ↔
      (aluEval x y zx nx zy ny f no).1 = 0) ∧
    ((aluEval x y zx nx zy ny f no).2.2 = HIGH ↔
      ((aluEval x y zx nx zy ny f no).1).testBit 15 = true) ∧
    ((aluEval x y zx nx zy ny f no).2.2 = HIGH ↔
      0x8000 ≤ (aluEval x y zx nx zy ny f no).1) := by
  have hzr : (aluEval x y zx nx zy ny f no).2.1 =
      (if aluFlagsOf ((aluEval x y zx nx zy ny f no).1) = AluFlags.Zero
        then HIGH else LOW) := rfl
  have hng : (aluEval x y zx nx zy ny f no).2.2 =
      (if aluFlagsOf ((aluEval x y zx nx zy ny f no).1) = AluFlags.Negative
        then HIGH else LOW) := rfl
  have hlt : (aluEval x y zx nx zy ny f no).1 < 65536 :=
    aluOperation_fst_lt _ x y hy
  obtain ⟨hz, hn⟩ := aluFlagsOf_spec ((aluEval x y zx nx zy ny f no).1)
  obtain ⟨hb15, hge⟩ := and_8000_iff ((aluEval x y zx nx zy ny f no).1) hlt
  have hQ : aluFlagsOf ((aluEval x y zx nx zy ny f no).1) = AluFlags.Negative ↔
      ((aluEval x y zx nx zy ny f no).1).testBit 15 = true := by
    rw [hn]
    constructor
    · rintro ⟨_, h2⟩
      exact hb15.mp h2
    · intro h
      have hA := hb15.mpr h
      exact ⟨by have := hge.mp hA; omega, hA⟩
  refine ⟨aluEval_out_eq x y zx nx zy ny f no hx hy, ?_, ?_, ?_⟩
  · rw [hzr, ite_high_iff]
    exact hz
  · rw [hng, ite_high_iff]
    exact hQ
  · rw [hng, ite_high_iff]
    rw [hQ]
    rw [← hb15]
    exact hge

/-- C1 (witness): the ALU contract evaluated at x=0x1234, y=0x5678 with f=1
(spec scenario 3: out = 0x68AC, zr = 0, ng = 0). -/
theorem alu_eval_spec_witness :
    (aluEval 0x1234 0x5678 false false false false true false).1 =
      specAluStaged 0x1234 0x5678 false false false false true false ∧
    ((aluEval 0x1234 0x5678 false false false false true false).2.1 = HIGH ↔
      (aluEval 0x1234 0x5678 false false false false true false).1 = 0) ∧
    (aluEval 0x1234 0x5678 false false false false true false).1 = 0x68AC :=
  ⟨(alu_eval_spec 0x1234 0x5678 false false false false true false
      (by decide) (by decide)).1,
   (alu_eval_spec 0x1234 0x5678 false false false false true false
      (by decide) (by decide)).2.1,
   by decide⟩

end N2T
